import Mathlib

/-!
Verification of the bounding-box geometry and mark-selection kernel of the
weblinx-browsergym data-preparation scripts.

The definitions below are shallow embeddings of the Python functions in
`src/processing/get_snapshots.py` and
`src/processing/prepare_data_for_agentlab.py`.  Machine floats are modelled
by rationals; Python dictionaries are modelled by association lists in
insertion order; a Python function that can raise (KeyError, ValueError,
ZeroDivisionError) is modelled as returning an `Option`, with `none`
standing for the raised exception.
-/

namespace Weblinx

/-- A bounding box `{x, y, width, height}` as used throughout the scripts. -/
structure Box where
  x : ℚ
  y : ℚ
  width : ℚ
  height : ℚ
deriving DecidableEq, Repr

/-- First-match lookup in an association list, modelling Python dict access
`d[key]` / `key in d` (a Python dict has unique keys; the association lists we
quantify over coincide with that when their keys are distinct). -/
def lookup_assoc {α : Type} (key : String) : List (String × α) → Option α
  | [] => none
  | (k, v) :: rest => if k = key then some v else lookup_assoc key rest

/-! ### `get_snapshots.py`: rectangle geometry -/

/-- Embeds `compute_visibility` (get_snapshots.py lines 118-146): the
fully-outside test, then the fully-inside test, then the clipped-area ratio
guarded by `total_area <= 0`. -/
def compute_visibility (bbox : Box) (screen_width screen_height : ℚ) : ℚ :=
  let x := bbox.x
  let y := bbox.y
  let width := bbox.width
  let height := bbox.height
  if x + width < 0 ∨ x > screen_width ∨ y + height < 0 ∨ y > screen_height then 0
  else if x ≥ 0 ∧ y ≥ 0 ∧ x + width ≤ screen_width ∧ y + height ≤ screen_height then 1
  else
    let x1 := max x 0
    let y1 := max y 0
    let x2 := min (x + width) screen_width
    let y2 := min (y + height) screen_height
    let area := (x2 - x1) * (y2 - y1)
    let total_area := width * height
    if total_area ≤ 0 then 0
    else area / total_area

/-- The intersection-rectangle area computed inside `compute_iou`
(get_snapshots.py lines 163-170). -/
def inter_area (bbox1 bbox2 : Box) : ℚ :=
  let xA := max bbox1.x bbox2.x
  let yA := max bbox1.y bbox2.y
  let xB := min (bbox1.x + bbox1.width) (bbox2.x + bbox2.width)
  let yB := min (bbox1.y + bbox1.height) (bbox2.y + bbox2.height)
  max 0 (xB - xA) * max 0 (yB - yA)

/-- Embeds `compute_iou` (get_snapshots.py lines 149-179).  The Python code
divides by `boxAArea + boxBArea - interArea` with no guard; a zero denominator
raises `ZeroDivisionError`, modelled here as `none`. -/
def compute_iou (bbox1 bbox2 : Box) : Option ℚ :=
  let interArea := inter_area bbox1 bbox2
  let boxAArea := bbox1.width * bbox1.height
  let boxBArea := bbox2.width * bbox2.height
  if boxAArea + boxBArea - interArea = 0 then none
  else some (interArea / (boxAArea + boxBArea - interArea))

/-! ### `get_snapshots.py`: mark inference and property merge -/

/-- The per-element property record manipulated by
`update_extra_props_with_bboxes`; `other` stands for all passthrough fields
(semantic role, etc.) that the function never touches. -/
structure GSProps where
  bbox : Option (List ℚ)
  visibility : ℚ
  set_of_marks : Bool
  other : String
deriving DecidableEq, Repr

/-- The `for k, val in existing_soms.items()` loop of `infer_set_of_marks`
(get_snapshots.py lines 195-202); note that the source places the
area-threshold test inside this loop, after the IoU test. -/
def infer_loop (bbox : Box) (iou_threshold area_px_threshold : ℚ) :
    List (String × Box) → Option Bool
  | [] => some true
  | (_, val) :: rest =>
    match compute_iou bbox val with
    | none => none
    | some i =>
      if i > iou_threshold then some false
      else if bbox.width * bbox.height < area_px_threshold then some false
      else infer_loop bbox iou_threshold area_px_threshold rest

/-- Embeds `infer_set_of_marks` (get_snapshots.py lines 182-206): looks up
`bboxes[key]` (`none` models the KeyError), runs the loop over
`existing_soms`, and on acceptance records `existing_soms[key] = bbox`. -/
def infer_set_of_marks (key : String) (bboxes : List (String × Box))
    (existing_soms : List (String × Box))
    (iou_threshold area_px_threshold : ℚ) : Option (Bool × List (String × Box)) :=
  match lookup_assoc key bboxes with
  | none => none
  | some bbox =>
    match infer_loop bbox iou_threshold area_px_threshold existing_soms with
    | none => none
    | some true => some (true, existing_soms ++ [(key, bbox)])
    | some false => some (false, existing_soms)

/-- Embeds `update_extra_props_with_bboxes` (get_snapshots.py lines 209-229).
The source re-binds `existing_soms = {}` at the top of every loop iteration,
so each `infer_set_of_marks` call receives an empty accepted set; the default
thresholds `iou_threshold=0.9` and `area_px_threshold=25` are used. -/
def update_extra_props_with_bboxes (bboxes : List (String × Box))
    (screen_width screen_height : ℚ) :
    List (String × GSProps) → Option (List (String × GSProps))
  | [] => some []
  | (key, value) :: rest =>
    match lookup_assoc key bboxes with
    | some b =>
      match infer_set_of_marks key bboxes [] (9 / 10) 25 with
      | none => none
      | some (som, _) =>
        match update_extra_props_with_bboxes bboxes screen_width screen_height rest with
        | none => none
        | some out =>
          some ((key,
            { value with
              bbox := some [b.x, b.y, b.width, b.height],
              visibility := compute_visibility b screen_width screen_height,
              set_of_marks := som }) :: out)
    | none =>
      match update_extra_props_with_bboxes bboxes screen_width screen_height rest with
      | none => none
      | some out =>
        some ((key, { value with visibility := 0, set_of_marks := false }) :: out)

/-! ### `prepare_data_for_agentlab.py`: mark deduplication pipeline -/

/-- The per-element property record of `prepare_data_for_agentlab.py`; there
`set_of_marks` and `clickable` are JSON numbers compared with `== 0` / `== 1`,
modelled as integers.  `other` stands for untouched passthrough fields. -/
structure APProps where
  bbox : Option (List ℚ)
  set_of_marks : ℤ
  clickable : ℤ
  other : String
deriving DecidableEq, Repr

/-- Python tuple unpacking `x, y, w, h = bbox`; `none` models the ValueError
raised when the list does not have exactly four entries. -/
def unpack4 : List ℚ → Option (ℚ × ℚ × ℚ × ℚ)
  | [a, b, c, d] => some (a, b, c, d)
  | _ => none

/-- One iteration body of `verify_overlap_with_other_bboxes`
(prepare_data_for_agentlab.py lines 33-47): the IoU of two boxes given as
4-element lists, with `none` modelling ValueError on unpacking or
ZeroDivisionError on a zero denominator. -/
def iou_of_boxes (bbox other_bbox : List ℚ) : Option ℚ :=
  match unpack4 bbox, unpack4 other_bbox with
  | some (x1, y1, w1, h1), some (x2, y2, w2, h2) =>
    let xA := max x1 x2
    let yA := max y1 y2
    let xB := min (x1 + w1) (x2 + w2)
    let yB := min (y1 + h1) (y2 + h2)
    let interArea := max 0 (xB - xA) * max 0 (yB - yA)
    let boxAArea := w1 * h1
    let boxBArea := w2 * h2
    if boxAArea + boxBArea - interArea = 0 then none
    else some (interArea / (boxAArea + boxBArea - interArea))
  | _, _ => none

/-- Embeds `verify_overlap_with_other_bboxes` (prepare_data_for_agentlab.py
lines 18-52): returns `true` at the first list element whose IoU with `bbox`
exceeds the threshold, `false` if none does. -/
def verify_overlap_with_other_bboxes (bbox : List ℚ) (bboxes_list : List (List ℚ))
    (iou_threshold : ℚ) : Option Bool :=
  match bboxes_list with
  | [] => some false
  | other_bbox :: rest =>
    match iou_of_boxes bbox other_bbox with
    | none => none
    | some iou =>
      if iou > iou_threshold then some true
      else verify_overlap_with_other_bboxes bbox rest iou_threshold

/-- The per-element area computed by `sort_uid_by_area` (lines 67-72): 0 for a
missing bbox, otherwise `w * h` after unpacking (which can raise). -/
def bbox_area (props : APProps) : Option ℚ :=
  match props.bbox with
  | none => some 0
  | some l =>
    match unpack4 l with
    | none => none
    | some (_, _, w, h) => some (w * h)

/-- The `uid_to_area` mapping built by `sort_uid_by_area`, in dict insertion
order (= input order). -/
def uid_area_pairs : List (String × APProps) → Option (List (String × ℚ))
  | [] => some []
  | (uid, props) :: rest =>
    match bbox_area props, uid_area_pairs rest with
    | some a, some tl => some ((uid, a) :: tl)
    | _, _ => none

/-- The comparison used by `sorted(uid_to_area, key=uid_to_area.get)`:
ascending by area. -/
def area_le (a b : String × ℚ) : Prop := a.2 ≤ b.2

instance : DecidableRel area_le := fun a b => inferInstanceAs (Decidable (a.2 ≤ b.2))

instance : IsTotal (String × ℚ) area_le := ⟨fun a b => le_total a.2 b.2⟩

instance : IsTrans (String × ℚ) area_le := ⟨fun _ _ _ h1 h2 => le_trans h1 h2⟩

/-- Embeds `sort_uid_by_area` (prepare_data_for_agentlab.py lines 54-76):
Python's `sorted` is a stable ascending sort, modelled by Mathlib's (stable)
insertion sort on the `(uid, area)` pairs in input order. -/
def sort_uid_by_area (extra_props : List (String × APProps)) : Option (List String) :=
  match uid_area_pairs extra_props with
  | none => none
  | some pairs => some ((List.insertionSort area_le pairs).map Prod.fst)

/-- In-place mutation `props['set_of_marks'] = 0` of the dict entry for
`uid`. -/
def set_som_zero (uid : String) : List (String × APProps) → List (String × APProps)
  | [] => []
  | (k, p) :: rest =>
    if k = uid then (k, { p with set_of_marks := 0 }) :: rest
    else (k, p) :: set_som_zero uid rest

/-- The `for uid in uids_sorted` loop of `remove_overlapping_bboxes`
(prepare_data_for_agentlab.py lines 98-112), carrying the mutating property
table and the `other_bboxes` accumulator.  Note the source appends
`props["bbox"]` to `other_bboxes` unconditionally, whether or not the
candidate was marked overlapping. -/
def rm_loop (iou_threshold : ℚ) :
    List String → List (String × APProps) → List (List ℚ) →
    Option (List (String × APProps) × List (List ℚ))
  | [], extra_props, other_bboxes => some (extra_props, other_bboxes)
  | uid :: rest, extra_props, other_bboxes =>
    match lookup_assoc uid extra_props with
    | none => none
    | some props =>
      if props.set_of_marks = 0 then rm_loop iou_threshold rest extra_props other_bboxes
      else
        match props.bbox with
        | none => rm_loop iou_threshold rest extra_props other_bboxes
        | some bb =>
          match verify_overlap_with_other_bboxes bb other_bboxes iou_threshold with
          | none => none
          | some is_overlapping =>
            rm_loop iou_threshold rest
              (if is_overlapping then set_som_zero uid extra_props else extra_props)
              (other_bboxes ++ [bb])

/-- Embeds `remove_overlapping_bboxes` (prepare_data_for_agentlab.py lines
78-114). -/
def remove_overlapping_bboxes (extra_props : List (String × APProps))
    (iou_threshold : ℚ) : Option (List (String × APProps)) :=
  match sort_uid_by_area extra_props with
  | none => none
  | some uids_sorted =>
    match rm_loop iou_threshold uids_sorted extra_props [] with
    | none => none
    | some (ep, _) => some ep

/-- The per-entry body of `preprocess_extra_props`
(prepare_data_for_agentlab.py lines 116-134). -/
def preprocess_one (min_area max_area : ℚ) (p : APProps) : APProps :=
  match p.bbox with
  | none => { p with set_of_marks := 0, clickable := 0 }
  | some l =>
    match unpack4 l with
    | none => { p with set_of_marks := 0, clickable := 0 }
    | some (_, _, width, height) =>
      if p.set_of_marks = 1 then
        { p with
          set_of_marks :=
            if min_area ≤ width * height ∧ width * height ≤ max_area then 1 else 0 }
      else p

/-- Embeds `preprocess_extra_props` (prepare_data_for_agentlab.py lines
116-134), applied entry-wise over the property table. -/
def preprocess_extra_props (extra_props : List (String × APProps))
    (min_area max_area : ℚ) : List (String × APProps) :=
  extra_props.map (fun kp => (kp.1, preprocess_one min_area max_area kp.2))

/-! ### Spec-side reference definitions and concrete inputs -/

/-- Modelled from the spec: the `selectMarks` algorithm exactly as §4.2 and
claim C1 word it, for the refinement comparison with
`remove_overlapping_bboxes`: process the ordered candidates, reject a
candidate whose area falls outside `[minArea, maxArea]`, otherwise reject it
if its IoU against some already-accepted box exceeds the threshold, and
append a candidate's box to the accepted list only when that candidate is
accepted. -/
def select_marks_spec_loop (iou_threshold min_area max_area : ℚ) :
    List (String × List ℚ) → List (List ℚ) → Option (List String)
  | [], _ => some []
  | (uid, bb) :: rest, accepted =>
    match unpack4 bb with
    | none => none
    | some (_, _, w, h) =>
      if w * h < min_area ∨ max_area < w * h then
        select_marks_spec_loop iou_threshold min_area max_area rest accepted
      else
        match verify_overlap_with_other_bboxes bb accepted iou_threshold with
        | none => none
        | some true => select_marks_spec_loop iou_threshold min_area max_area rest accepted
        | some false =>
          match select_marks_spec_loop iou_threshold min_area max_area rest (accepted ++ [bb]) with
          | none => none
          | some ids => some (uid :: ids)

/-- Modelled from the spec: entry point of the §4.2 `selectMarks` reference,
starting from an empty accepted list. -/
def select_marks_spec (candidates : List (String × List ℚ))
    (iou_threshold min_area max_area : ℚ) : Option (List String) :=
  select_marks_spec_loop iou_threshold min_area max_area candidates []

/-- A candidate's box, provided the candidate is considered at all by the
`remove_overlapping_bboxes` loop: its mark flag is nonzero and its bbox is
present.  Used to state what the loop actually accumulates. -/
def considered_box (extra_props : List (String × APProps)) (uid : String) :
    Option (List ℚ) :=
  match lookup_assoc uid extra_props with
  | none => none
  | some p => if p.set_of_marks = 0 then none else p.bbox

/-- The boxes of all considered candidates among `uids`, in order. -/
def considered_boxes (extra_props : List (String × APProps)) (uids : List String) :
    List (List ℚ) :=
  uids.filterMap (considered_box extra_props)

/-- Three concrete candidates: areas 100 < 110 < 120; the middle box overlaps
the first (IoU 8/13) and the third overlaps the middle (IoU 5/18) but barely
overlaps the first (IoU 1/10). -/
def c1_p1 : APProps := ⟨some [0, 0, 10, 10], 1, 1, "first"⟩

/-- Second concrete candidate (see `c1_p1`). -/
def c1_p2 : APProps := ⟨some [0, 2, 10, 11], 1, 1, "second"⟩

/-- Third concrete candidate (see `c1_p1`). -/
def c1_p3 : APProps := ⟨some [0, 8, 10, 12], 1, 1, "third"⟩

/-- The concrete three-candidate property table built from `c1_p1`-`c1_p3`. -/
def c1_ep : List (String × APProps) := [("a", c1_p1), ("b", c1_p2), ("c", c1_p3)]

/-- What `remove_overlapping_bboxes` actually returns on `c1_ep` at threshold
1/4: the third candidate is also suppressed, by the box of the already
rejected second candidate. -/
def c1_out : List (String × APProps) :=
  [("a", c1_p1), ("b", { c1_p2 with set_of_marks := 0 }),
    ("c", { c1_p3 with set_of_marks := 0 })]

/-- Concrete two-element property table with equal areas, to exercise the
stability tie-break of claim C9. -/
def c9_ep : List (String × APProps) :=
  [("x", ⟨some [0, 0, 2, 2], 1, 1, "x"⟩), ("y", ⟨some [5, 5, 2, 2], 1, 1, "y"⟩)]

/-! ### Geometry lemmas -/

theorem inter_area_comm (bbox1 bbox2 : Box) : inter_area bbox1 bbox2 = inter_area bbox2 bbox1 := by
  unfold inter_area
  rw [max_comm bbox1.x bbox2.x, max_comm bbox1.y bbox2.y,
    min_comm (bbox1.x + bbox1.width) (bbox2.x + bbox2.width),
    min_comm (bbox1.y + bbox1.height) (bbox2.y + bbox2.height)]

theorem inter_area_eq_zero_left (bbox1 bbox2 : Box)
    (h : bbox1.width * bbox1.height = 0) : inter_area bbox1 bbox2 = 0 := by
  simp only [inter_area]
  rcases mul_eq_zero.mp h with hw | hh
  · have hxB : min (bbox1.x + bbox1.width) (bbox2.x + bbox2.width) ≤ bbox1.x := by
      calc min (bbox1.x + bbox1.width) (bbox2.x + bbox2.width) ≤ bbox1.x + bbox1.width :=
            min_le_left _ _
        _ = bbox1.x := by rw [hw, add_zero]
    have hxA : bbox1.x ≤ max bbox1.x bbox2.x := le_max_left _ _
    have : max 0 (min (bbox1.x + bbox1.width) (bbox2.x + bbox2.width) - max bbox1.x bbox2.x) = 0 :=
      max_eq_left (by linarith)
    rw [this, zero_mul]
  · have hyB : min (bbox1.y + bbox1.height) (bbox2.y + bbox2.height) ≤ bbox1.y := by
      calc min (bbox1.y + bbox1.height) (bbox2.y + bbox2.height) ≤ bbox1.y + bbox1.height :=
            min_le_left _ _
        _ = bbox1.y := by rw [hh, add_zero]
    have hyA : bbox1.y ≤ max bbox1.y bbox2.y := le_max_left _ _
    have : max 0 (min (bbox1.y + bbox1.height) (bbox2.y + bbox2.height) - max bbox1.y bbox2.y) = 0 :=
      max_eq_left (by linarith)
    rw [this, mul_zero]

theorem inter_area_eq_zero_of_degenerate (bbox1 bbox2 : Box)
    (h : bbox1.width * bbox1.height = 0 ∨ bbox2.width * bbox2.height = 0) :
    inter_area bbox1 bbox2 = 0 := by
  rcases h with h | h
  · exact inter_area_eq_zero_left bbox1 bbox2 h
  · rw [inter_area_comm]
    exact inter_area_eq_zero_left bbox2 bbox1 h

/-! ### Claim C2 (corrected) -/

/-- C2 counterexample: the claim says the IoU computation returns a defined
numeric value without raising any exception for every pair of boxes,
including zero-area boxes; but on two coincident zero-area boxes the
denominator `boxAArea + boxBArea - interArea` is 0 and the Python code raises
`ZeroDivisionError` (modelled by `none`) instead of returning 0. -/
theorem compute_iou_zero_area_crash :
    compute_iou ⟨0, 0, 0, 0⟩ ⟨0, 0, 0, 0⟩ = none := by
  norm_num [compute_iou, inter_area]

/-- C2 (amended): whenever the IoU denominator
`area(a) + area(b) - interArea` is nonzero, `compute_iou` returns a defined
value, and if moreover either box has zero area the value is 0; when the
denominator is zero the computation fails (Python raises
`ZeroDivisionError`) rather than returning 0. -/
theorem compute_iou_defined_cases (bbox1 bbox2 : Box)
    (hden : bbox1.width * bbox1.height + bbox2.width * bbox2.height -
      inter_area bbox1 bbox2 ≠ 0) :
    (∃ q, compute_iou bbox1 bbox2 = some q) ∧
      ((bbox1.width * bbox1.height = 0 ∨ bbox2.width * bbox2.height = 0) →
        compute_iou bbox1 bbox2 = some 0) := by
  constructor
  · simp only [compute_iou]
    rw [if_neg hden]
    exact ⟨_, rfl⟩
  · intro hzero
    simp only [compute_iou]
    rw [if_neg hden, inter_area_eq_zero_of_degenerate bbox1 bbox2 hzero, zero_div]

/-- Witness for C2 (amended) at a concrete input: a zero-area box against a
10×10 box has nonzero denominator and IoU 0. -/
theorem compute_iou_defined_cases_witness :
    (0 : ℚ) * 5 + 10 * 10 - inter_area ⟨0, 0, 0, 5⟩ ⟨0, 0, 10, 10⟩ ≠ 0 ∧
      compute_iou ⟨0, 0, 0, 5⟩ ⟨0, 0, 10, 10⟩ = some 0 := by
  have hden : (⟨0, 0, 0, 5⟩ : Box).width * (⟨0, 0, 0, 5⟩ : Box).height +
      (⟨0, 0, 10, 10⟩ : Box).width * (⟨0, 0, 10, 10⟩ : Box).height -
      inter_area ⟨0, 0, 0, 5⟩ ⟨0, 0, 10, 10⟩ ≠ 0 := by
    norm_num [inter_area]
  refine ⟨by norm_num [inter_area], ?_⟩
  exact (compute_iou_defined_cases ⟨0, 0, 0, 5⟩ ⟨0, 0, 10, 10⟩ hden).2 (Or.inl (by norm_num))

/-! ### Claim C10 (corrected) -/

/-- C10 counterexample: the claim says `IoU(a, a) = 1` for every box with
positive area, explicitly including boxes whose width and height are both
negative; but for `width = height = -2` the area is 4 > 0 while the clamped
intersection is 0, so the code returns 0, not 1. -/
theorem compute_iou_self_negative_box :
    (0 : ℚ) < (-2) * (-2) ∧
      compute_iou ⟨0, 0, -2, -2⟩ ⟨0, 0, -2, -2⟩ = some 0 ∧
      compute_iou ⟨0, 0, -2, -2⟩ ⟨0, 0, -2, -2⟩ ≠ some 1 := by
  refine ⟨by norm_num, by norm_num [compute_iou, inter_area], ?_⟩
  norm_num [compute_iou, inter_area]

/-- C10 (amended): `IoU(a, a) = 1` holds for every box with positive width
and positive height; a box with both width and height negative (which also
has positive area) instead yields `IoU(a, a) = 0`. -/
theorem compute_iou_self (a : Box) (hcase : 0 < a.width ∧ 0 < a.height ∨ a.width < 0 ∧ a.height < 0) :
    compute_iou a a = some (if 0 < a.width then 1 else 0) := by
  have hself : inter_area a a = max 0 a.width * max 0 a.height := by
    simp only [inter_area]
    rw [max_self, max_self, min_self, min_self, add_sub_cancel_left, add_sub_cancel_left]
  rcases hcase with ⟨hw, hh⟩ | ⟨hw, hh⟩
  · have hint : inter_area a a = a.width * a.height := by
      rw [hself, max_eq_right hw.le, max_eq_right hh.le]
    have harea : (0 : ℚ) < a.width * a.height := mul_pos hw hh
    simp only [compute_iou]
    rw [hint, if_neg (by intro hcontra; linarith)]
    rw [if_pos hw]
    congr 1
    have hcollapse : a.width * a.height + a.width * a.height - a.width * a.height =
        a.width * a.height := by ring
    rw [hcollapse, div_self (ne_of_gt harea)]
  · have hint : inter_area a a = 0 := by
      rw [hself, max_eq_left hw.le, zero_mul]
    have harea : (0 : ℚ) < a.width * a.height := mul_pos_of_neg_of_neg hw hh
    simp only [compute_iou]
    rw [hint, if_neg (by intro hcontra; linarith)]
    rw [if_neg (not_lt.mpr hw.le), zero_div]

/-- Witness for C10 (amended) at concrete inputs: a 3×4 box has self-IoU 1,
and the all-negative box of the counterexample has self-IoU 0. -/
theorem compute_iou_self_witness :
    compute_iou ⟨0, 0, 3, 4⟩ ⟨0, 0, 3, 4⟩ = some 1 ∧
      compute_iou ⟨1, 1, -2, -3⟩ ⟨1, 1, -2, -3⟩ = some 0 := by
  constructor
  · have h := compute_iou_self ⟨0, 0, 3, 4⟩ (Or.inl (by norm_num))
    simpa using h
  · have h := compute_iou_self ⟨1, 1, -2, -3⟩ (Or.inr (by norm_num))
    simpa using h

/-! ### Claim C5 (corrected) -/

/-- C5 counterexample: the claim says `compute_visibility` returns 0 for
every box of non-positive total area; but the zero-area box at the origin
passes the fully-inside test, which the code checks before the
`total_area <= 0` guard, and returns 1. -/
theorem compute_visibility_degenerate_inside_one :
    (0 : ℚ) * 0 ≤ 0 ∧ compute_visibility ⟨0, 0, 0, 0⟩ 100 100 = 1 ∧ (1 : ℚ) ≠ 0 := by
  refine ⟨by norm_num, ?_, by norm_num⟩
  norm_num [compute_visibility]

/-- C5 (amended): for a box of non-positive total area, `compute_visibility`
returns 0, unless the box both fails the fully-outside test and passes the
fully-inside test
`x ≥ 0 ∧ y ≥ 0 ∧ x + width ≤ screenWidth ∧ y + height ≤ screenHeight`, in
which case it returns 1. -/
theorem compute_visibility_degenerate (bbox : Box) (screen_width screen_height : ℚ)
    (harea : bbox.width * bbox.height ≤ 0) :
    compute_visibility bbox screen_width screen_height =
      if ¬(bbox.x + bbox.width < 0 ∨ bbox.x > screen_width ∨
            bbox.y + bbox.height < 0 ∨ bbox.y > screen_height) ∧
          (bbox.x ≥ 0 ∧ bbox.y ≥ 0 ∧ bbox.x + bbox.width ≤ screen_width ∧
            bbox.y + bbox.height ≤ screen_height) then 1 else 0 := by
  simp only [compute_visibility]
  by_cases h1 : bbox.x + bbox.width < 0 ∨ bbox.x > screen_width ∨
      bbox.y + bbox.height < 0 ∨ bbox.y > screen_height
  · rw [if_pos h1, if_neg (by tauto)]
  · rw [if_neg h1]
    by_cases h2 : bbox.x ≥ 0 ∧ bbox.y ≥ 0 ∧ bbox.x + bbox.width ≤ screen_width ∧
        bbox.y + bbox.height ≤ screen_height
    · rw [if_pos h2, if_pos ⟨h1, h2⟩]
    · rw [if_neg h2, if_pos harea, if_neg (by tauto)]

/-- Witness for C5 (amended): a zero-width box straddling the left screen
edge has area 0, fails the fully-outside test and fails the fully-inside
test, and the code indeed returns 0. -/
theorem compute_visibility_degenerate_witness :
    (10 : ℚ) * 0 ≤ 0 ∧ compute_visibility ⟨-3, 5, 10, 0⟩ 100 100 = 0 := by
  constructor
  · norm_num
  · have h := compute_visibility_degenerate ⟨-3, 5, 10, 0⟩ 100 100 (by norm_num)
    rw [h, if_neg]
    intro hcontra
    rcases hcontra with ⟨-, hx, -⟩
    norm_num at hx

/-! ### Claim C3 (code bug) -/

/-- C3: the claim (and the spec) say a candidate whose box area is below the
minimum area is never marked, regardless of overlap.  `infer_set_of_marks`
places its `area_px_threshold` test inside the loop over `existing_soms`, so
with an empty accepted set (which is how `update_extra_props_with_bboxes`
always calls it) a 2×2 box of area 4 < 25 is marked anyway.  The
`preprocess_extra_props` pass of the other script does implement the check:
it clears the mark of the same box for `min_area = 50`. -/
theorem infer_set_of_marks_small_area_bug :
    (2 : ℚ) * 2 < 25 ∧
      infer_set_of_marks "a" [("a", ⟨0, 0, 2, 2⟩)] [] (9 / 10) 25 =
        some (true, [("a", ⟨0, 0, 2, 2⟩)]) ∧
      preprocess_one 50 500000 ⟨some [0, 0, 2, 2], 1, 1, "el"⟩ =
        ⟨some [0, 0, 2, 2], 0, 1, "el"⟩ := by
  refine ⟨by norm_num, ?_, ?_⟩
  · decide
  · norm_num [preprocess_one, unpack4]

/-! ### Property-merge lemmas (`update_extra_props_with_bboxes`) -/

theorem infer_set_of_marks_empty (key : String) (bboxes : List (String × Box)) (b : Box)
    (iou_threshold area_px_threshold : ℚ) (h : lookup_assoc key bboxes = some b) :
    infer_set_of_marks key bboxes [] iou_threshold area_px_threshold =
      some (true, [(key, b)]) := by
  simp [infer_set_of_marks, h, infer_loop]

theorem update_extra_props_isSome (bboxes : List (String × Box)) (sw sh : ℚ)
    (extra_props : List (String × GSProps)) :
    ∃ out, update_extra_props_with_bboxes bboxes sw sh extra_props = some out := by
  induction extra_props with
  | nil => exact ⟨[], rfl⟩
  | cons kv rest ih =>
    obtain ⟨key, value⟩ := kv
    obtain ⟨out, hout⟩ := ih
    cases hb : lookup_assoc key bboxes with
    | none =>
      exact ⟨(key, { value with visibility := 0, set_of_marks := false }) :: out,
        by simp [update_extra_props_with_bboxes, hb, hout]⟩
    | some b =>
      exact ⟨(key,
          { value with
            bbox := some [b.x, b.y, b.width, b.height],
            visibility := compute_visibility b sw sh,
            set_of_marks := true }) :: out,
        by simp [update_extra_props_with_bboxes, hb, hout,
          infer_set_of_marks_empty key bboxes b (9 / 10) 25 hb]⟩

/-! ### Claim C4 (confirmed) -/

/-- C4: because `update_extra_props_with_bboxes` re-initializes
`existing_soms = {}` on every loop iteration, `infer_set_of_marks` is always
called with an empty accepted set, so every element id present in both the
property table and the box map comes out with `set_of_marks = True`,
independently of its area and of overlap with any other box (the box map
`bboxes` is universally quantified here). -/
theorem update_extra_props_always_marks (extra_props : List (String × GSProps))
    (bboxes : List (String × Box)) (sw sh : ℚ) (key : String) (value : GSProps) (b : Box)
    (hv : lookup_assoc key extra_props = some value)
    (hb : lookup_assoc key bboxes = some b) :
    ∃ out, update_extra_props_with_bboxes bboxes sw sh extra_props = some out ∧
      lookup_assoc key out = some
        { value with
          bbox := some [b.x, b.y, b.width, b.height],
          visibility := compute_visibility b sw sh,
          set_of_marks := true } := by
  induction extra_props with
  | nil => simp [lookup_assoc] at hv
  | cons kv rest ih =>
    obtain ⟨k0, v0⟩ := kv
    by_cases hk : k0 = key
    · subst hk
      rw [lookup_assoc, if_pos rfl, Option.some_inj] at hv
      subst hv
      obtain ⟨out, hout⟩ := update_extra_props_isSome bboxes sw sh rest
      have hstep : update_extra_props_with_bboxes bboxes sw sh ((k0, v0) :: rest) =
          some ((k0,
            { v0 with
              bbox := some [b.x, b.y, b.width, b.height],
              visibility := compute_visibility b sw sh,
              set_of_marks := true }) :: out) := by
        simp [update_extra_props_with_bboxes, hb, hout,
          infer_set_of_marks_empty k0 bboxes b (9 / 10) 25 hb]
      refine ⟨_, hstep, ?_⟩
      rw [lookup_assoc, if_pos rfl]
    · rw [lookup_assoc, if_neg hk] at hv
      obtain ⟨out, hout, hlook⟩ := ih hv
      cases hb0 : lookup_assoc k0 bboxes with
      | none =>
        have hstep : update_extra_props_with_bboxes bboxes sw sh ((k0, v0) :: rest) =
            some ((k0, { v0 with visibility := 0, set_of_marks := false }) :: out) := by
          simp [update_extra_props_with_bboxes, hb0, hout]
        refine ⟨_, hstep, ?_⟩
        rw [lookup_assoc, if_neg hk]
        exact hlook
      | some b0 =>
        have hstep : update_extra_props_with_bboxes bboxes sw sh ((k0, v0) :: rest) =
            some ((k0,
              { v0 with
                bbox := some [b0.x, b0.y, b0.width, b0.height],
                visibility := compute_visibility b0 sw sh,
                set_of_marks := true }) :: out) := by
          simp [update_extra_props_with_bboxes, hb0, hout,
            infer_set_of_marks_empty k0 bboxes b0 (9 / 10) 25 hb0]
        refine ⟨_, hstep, ?_⟩
        rw [lookup_assoc, if_neg hk]
        exact hlook

/-- Witness for C4 at a concrete input: a 2×2 box (area 4, far below the
25-pixel threshold) still gets `set_of_marks = true`. -/
theorem update_extra_props_always_marks_witness :
    ∃ out, update_extra_props_with_bboxes [("a", ⟨0, 0, 2, 2⟩)] 100 100
        [("a", ⟨none, 5, false, "role"⟩)] = some out ∧
      lookup_assoc "a" out = some
        ⟨some [0, 0, 2, 2], compute_visibility ⟨0, 0, 2, 2⟩ 100 100, true, "role"⟩ :=
  update_extra_props_always_marks [("a", ⟨none, 5, false, "role"⟩)]
    [("a", ⟨0, 0, 2, 2⟩)] 100 100 "a" ⟨none, 5, false, "role"⟩ ⟨0, 0, 2, 2⟩
    (by decide) (by decide)

/-! ### Claim C8 (confirmed) -/

/-- C8: for every element id present in the property table but absent from
the box map, `update_extra_props_with_bboxes` raises no error and produces an
entry with `visibility = 0` and `set_of_marks = false`, leaving every other
field (`bbox`, the passthrough `other`) unchanged, independent of the entry's
prior state. -/
theorem update_extra_props_missing_box (extra_props : List (String × GSProps))
    (bboxes : List (String × Box)) (sw sh : ℚ) (key : String) (value : GSProps)
    (hv : lookup_assoc key extra_props = some value)
    (hb : lookup_assoc key bboxes = none) :
    ∃ out, update_extra_props_with_bboxes bboxes sw sh extra_props = some out ∧
      lookup_assoc key out = some { value with visibility := 0, set_of_marks := false } := by
  induction extra_props with
  | nil => simp [lookup_assoc] at hv
  | cons kv rest ih =>
    obtain ⟨k0, v0⟩ := kv
    by_cases hk : k0 = key
    · subst hk
      rw [lookup_assoc, if_pos rfl, Option.some_inj] at hv
      subst hv
      obtain ⟨out, hout⟩ := update_extra_props_isSome bboxes sw sh rest
      have hstep : update_extra_props_with_bboxes bboxes sw sh ((k0, v0) :: rest) =
          some ((k0, { v0 with visibility := 0, set_of_marks := false }) :: out) := by
        simp [update_extra_props_with_bboxes, hb, hout]
      refine ⟨_, hstep, ?_⟩
      rw [lookup_assoc, if_pos rfl]
    · rw [lookup_assoc, if_neg hk] at hv
      obtain ⟨out, hout, hlook⟩ := ih hv
      cases hb0 : lookup_assoc k0 bboxes with
      | none =>
        have hstep : update_extra_props_with_bboxes bboxes sw sh ((k0, v0) :: rest) =
            some ((k0, { v0 with visibility := 0, set_of_marks := false }) :: out) := by
          simp [update_extra_props_with_bboxes, hb0, hout]
        refine ⟨_, hstep, ?_⟩
        rw [lookup_assoc, if_neg hk]
        exact hlook
      | some b0 =>
        have hstep : update_extra_props_with_bboxes bboxes sw sh ((k0, v0) :: rest) =
            some ((k0,
              { v0 with
                bbox := some [b0.x, b0.y, b0.width, b0.height],
                visibility := compute_visibility b0 sw sh,
                set_of_marks := true }) :: out) := by
          simp [update_extra_props_with_bboxes, hb0, hout,
            infer_set_of_marks_empty k0 bboxes b0 (9 / 10) 25 hb0]
        refine ⟨_, hstep, ?_⟩
        rw [lookup_assoc, if_neg hk]
        exact hlook

/-- Witness for C8 at a concrete input: an entry with a stale bbox and
nonzero prior visibility keeps its bbox and passthrough field but gets
`visibility = 0` and `set_of_marks = false`. -/
theorem update_extra_props_missing_box_witness :
    ∃ out, update_extra_props_with_bboxes [] 100 100
        [("b", ⟨some [1, 2, 3, 4], 7, true, "semantic"⟩)] = some out ∧
      lookup_assoc "b" out = some ⟨some [1, 2, 3, 4], 0, false, "semantic"⟩ :=
  update_extra_props_missing_box [("b", ⟨some [1, 2, 3, 4], 7, true, "semantic"⟩)]
    [] 100 100 "b" ⟨some [1, 2, 3, 4], 7, true, "semantic"⟩ (by decide) rfl

/-! ### Claim C7 (confirmed) -/

/-- C7: for every box of positive width and height and every screen with
positive dimensions, `compute_visibility` returns 0 when the box lies
entirely outside the screen rectangle, 1 when it lies entirely inside
`[0, screenWidth] × [0, screenHeight]`, and a value strictly between 0 and 1
when it straddles a screen edge (neither entirely outside nor entirely
inside).  The witness instantiates the spec's example
`{x:-5, y:0, width:10, height:10}` on a 100×100 screen, whose visibility
is 1/2. -/
theorem compute_visibility_trichotomy (bbox : Box) (screen_width screen_height : ℚ)
    (hw : 0 < bbox.width) (hh : 0 < bbox.height)
    (hsw : 0 < screen_width) (hsh : 0 < screen_height) :
    ((bbox.x + bbox.width ≤ 0 ∨ screen_width ≤ bbox.x ∨
        bbox.y + bbox.height ≤ 0 ∨ screen_height ≤ bbox.y) →
      compute_visibility bbox screen_width screen_height = 0) ∧
    ((bbox.x ≥ 0 ∧ bbox.y ≥ 0 ∧ bbox.x + bbox.width ≤ screen_width ∧
        bbox.y + bbox.height ≤ screen_height) →
      compute_visibility bbox screen_width screen_height = 1) ∧
    (¬(bbox.x + bbox.width ≤ 0 ∨ screen_width ≤ bbox.x ∨
        bbox.y + bbox.height ≤ 0 ∨ screen_height ≤ bbox.y) →
      ¬(bbox.x ≥ 0 ∧ bbox.y ≥ 0 ∧ bbox.x + bbox.width ≤ screen_width ∧
        bbox.y + bbox.height ≤ screen_height) →
      0 < compute_visibility bbox screen_width screen_height ∧
        compute_visibility bbox screen_width screen_height < 1) := by
  refine ⟨?_, ?_, ?_⟩
  · intro hout
    simp only [compute_visibility]
    by_cases hc1 : bbox.x + bbox.width < 0 ∨ bbox.x > screen_width ∨
        bbox.y + bbox.height < 0 ∨ bbox.y > screen_height
    · rw [if_pos hc1]
    · rw [if_neg hc1]
      push_neg at hc1
      obtain ⟨hxw, hxs, hyh, hys⟩ := hc1
      rcases hout with hcase | hcase | hcase | hcase
      · have heq : bbox.x + bbox.width = 0 := le_antisymm hcase hxw
        have hc2 : ¬(bbox.x ≥ 0 ∧ bbox.y ≥ 0 ∧ bbox.x + bbox.width ≤ screen_width ∧
            bbox.y + bbox.height ≤ screen_height) := by
          rintro ⟨hx0, -, -, -⟩
          have : bbox.x < 0 := by linarith
          linarith
        rw [if_neg hc2, if_neg (not_le.mpr (mul_pos hw hh))]
        have hx2 : min (bbox.x + bbox.width) screen_width = bbox.x + bbox.width :=
          min_eq_left (by linarith)
        have hx1 : max bbox.x 0 = 0 := max_eq_right (by linarith)
        rw [hx2, hx1, heq]
        simp
      · have heq : bbox.x = screen_width := le_antisymm hxs hcase
        have hc2 : ¬(bbox.x ≥ 0 ∧ bbox.y ≥ 0 ∧ bbox.x + bbox.width ≤ screen_width ∧
            bbox.y + bbox.height ≤ screen_height) := by
          rintro ⟨-, -, hxw2, -⟩
          linarith
        rw [if_neg hc2, if_neg (not_le.mpr (mul_pos hw hh))]
        have hx2 : min (bbox.x + bbox.width) screen_width = screen_width :=
          min_eq_right (by linarith)
        have hx1 : max bbox.x 0 = bbox.x := max_eq_left (by linarith)
        rw [hx2, hx1, heq]
        simp
      · have heq : bbox.y + bbox.height = 0 := le_antisymm hcase hyh
        have hc2 : ¬(bbox.x ≥ 0 ∧ bbox.y ≥ 0 ∧ bbox.x + bbox.width ≤ screen_width ∧
            bbox.y + bbox.height ≤ screen_height) := by
          rintro ⟨-, hy0, -, -⟩
          have : bbox.y < 0 := by linarith
          linarith
        rw [if_neg hc2, if_neg (not_le.mpr (mul_pos hw hh))]
        have hy2 : min (bbox.y + bbox.height) screen_height = bbox.y + bbox.height :=
          min_eq_left (by linarith)
        have hy1 : max bbox.y 0 = 0 := max_eq_right (by linarith)
        rw [hy2, hy1, heq]
        simp
      · have heq : bbox.y = screen_height := le_antisymm hys hcase
        have hc2 : ¬(bbox.x ≥ 0 ∧ bbox.y ≥ 0 ∧ bbox.x + bbox.width ≤ screen_width ∧
            bbox.y + bbox.height ≤ screen_height) := by
          rintro ⟨-, -, -, hyh2⟩
          linarith
        rw [if_neg hc2, if_neg (not_le.mpr (mul_pos hw hh))]
        have hy2 : min (bbox.y + bbox.height) screen_height = screen_height :=
          min_eq_right (by linarith)
        have hy1 : max bbox.y 0 = bbox.y := max_eq_left (by linarith)
        rw [hy2, hy1, heq]
        simp
  · intro hin
    obtain ⟨hx0, hy0, hxw2, hyh2⟩ := hin
    simp only [compute_visibility]
    have hc1 : ¬(bbox.x + bbox.width < 0 ∨ bbox.x > screen_width ∨
        bbox.y + bbox.height < 0 ∨ bbox.y > screen_height) := by
      push_neg
      refine ⟨by linarith, by linarith, by linarith, by linarith⟩
    rw [if_neg hc1, if_pos ⟨hx0, hy0, hxw2, hyh2⟩]
  · intro hno hnin
    have hno' := hno
    push_neg at hno'
    obtain ⟨hxw, hxs, hyh, hys⟩ := hno'
    simp only [compute_visibility]
    have hc1 : ¬(bbox.x + bbox.width < 0 ∨ bbox.x > screen_width ∨
        bbox.y + bbox.height < 0 ∨ bbox.y > screen_height) := by
      push_neg
      refine ⟨by linarith, by linarith, by linarith, by linarith⟩
    rw [if_neg hc1, if_neg hnin, if_neg (not_le.mpr (mul_pos hw hh))]
    have hxa : max bbox.x 0 < min (bbox.x + bbox.width) screen_width := by
      rw [max_lt_iff]
      constructor <;> rw [lt_min_iff] <;> constructor <;> linarith
    have hya : max bbox.y 0 < min (bbox.y + bbox.height) screen_height := by
      rw [max_lt_iff]
      constructor <;> rw [lt_min_iff] <;> constructor <;> linarith
    have hxle : min (bbox.x + bbox.width) screen_width - max bbox.x 0 ≤ bbox.width := by
      have h1 := min_le_left (bbox.x + bbox.width) screen_width
      have h2 := le_max_left bbox.x (0 : ℚ)
      linarith
    have hyle : min (bbox.y + bbox.height) screen_height - max bbox.y 0 ≤ bbox.height := by
      have h1 := min_le_left (bbox.y + bbox.height) screen_height
      have h2 := le_max_left bbox.y (0 : ℚ)
      linarith
    have hstrict : min (bbox.x + bbox.width) screen_width - max bbox.x 0 < bbox.width ∨
        min (bbox.y + bbox.height) screen_height - max bbox.y 0 < bbox.height := by
      by_contra hcon
      push_neg at hcon
      obtain ⟨hxge, hyge⟩ := hcon
      apply hnin
      have h1 := min_le_left (bbox.x + bbox.width) screen_width
      have h2 := le_max_left bbox.x (0 : ℚ)
      have h3 := le_max_right bbox.x (0 : ℚ)
      have h4 := min_le_right (bbox.x + bbox.width) screen_width
      have h5 := min_le_left (bbox.y + bbox.height) screen_height
      have h6 := le_max_left bbox.y (0 : ℚ)
      have h7 := le_max_right bbox.y (0 : ℚ)
      have h8 := min_le_right (bbox.y + bbox.height) screen_height
      refine ⟨by linarith, by linarith, by linarith, by linarith⟩
    have harea : (min (bbox.x + bbox.width) screen_width - max bbox.x 0) *
        (min (bbox.y + bbox.height) screen_height - max bbox.y 0) <
        bbox.width * bbox.height := by
      have hxpos : (0 : ℚ) < min (bbox.x + bbox.width) screen_width - max bbox.x 0 := by
        linarith
      have hypos : (0 : ℚ) < min (bbox.y + bbox.height) screen_height - max bbox.y 0 := by
        linarith
      rcases hstrict with hlt | hlt
      · nlinarith
      · nlinarith
    constructor
    · exact div_pos (by nlinarith) (mul_pos hw hh)
    · exact (div_lt_one (mul_pos hw hh)).mpr harea

/-- Witness for C7 at the spec's concrete example: the box
`{x:-5, y:0, width:10, height:10}` on a 100×100 screen straddles the left
edge and has visibility 1/2, strictly between 0 and 1. -/
theorem compute_visibility_trichotomy_witness :
    compute_visibility ⟨-5, 0, 10, 10⟩ 100 100 = 1 / 2 ∧
      (0 < compute_visibility ⟨-5, 0, 10, 10⟩ 100 100 ∧
        compute_visibility ⟨-5, 0, 10, 10⟩ 100 100 < 1) := by
  constructor
  · norm_num [compute_visibility]
  · exact (compute_visibility_trichotomy ⟨-5, 0, 10, 10⟩ 100 100
      (by norm_num) (by norm_num) (by norm_num) (by norm_num)).2.2
      (by norm_num) (by norm_num)

/-! ### Claim C6 (confirmed) -/

/-- C6: `remove_overlapping_bboxes` processes candidates in ascending order
of box area, so for any two candidates whose IoU exceeds the threshold (the
larger-area one listed first in the table, both marked and with well-formed
boxes), the smaller-area candidate keeps its mark and the larger-area one is
rejected.  The witness instantiates the spec's example
`A = {x:0,y:0,w:100,h:100}`, `B = {x:0,y:0,w:95,h:95}`, threshold 0.9. -/
theorem smaller_candidate_wins (uA uB : String) (pA pB : APProps)
    (xa ya wa ha xb yb wb hb q iou_threshold : ℚ)
    (hne : uA ≠ uB)
    (hsomA : pA.set_of_marks = 1) (hsomB : pB.set_of_marks = 1)
    (hbA : pA.bbox = some [xa, ya, wa, ha]) (hbB : pB.bbox = some [xb, yb, wb, hb])
    (harea : wb * hb < wa * ha)
    (hiou : iou_of_boxes [xa, ya, wa, ha] [xb, yb, wb, hb] = some q)
    (hgt : q > iou_threshold) :
    remove_overlapping_bboxes [(uA, pA), (uB, pB)] iou_threshold =
      some [(uA, { pA with set_of_marks := 0 }), (uB, pB)] := by
  have hpairs : uid_area_pairs [(uA, pA), (uB, pB)] =
      some [(uA, wa * ha), (uB, wb * hb)] := by
    simp [uid_area_pairs, bbox_area, hbA, hbB, unpack4]
  have hnle : ¬ area_le (uA, wa * ha) (uB, wb * hb) := not_le.mpr harea
  have hsort : sort_uid_by_area [(uA, pA), (uB, pB)] = some [uB, uA] := by
    unfold sort_uid_by_area
    rw [hpairs]
    simp [List.insertionSort, List.orderedInsert, hnle]
  have hlB : lookup_assoc uB [(uA, pA), (uB, pB)] = some pB := by
    simp [lookup_assoc, hne]
  have hlA : lookup_assoc uA [(uA, pA), (uB, pB)] = some pA := by
    simp [lookup_assoc]
  have hver1 : verify_overlap_with_other_bboxes [xb, yb, wb, hb] [] iou_threshold =
      some false := rfl
  have hver2 : verify_overlap_with_other_bboxes [xa, ya, wa, ha] [[xb, yb, wb, hb]]
      iou_threshold = some true := by
    simp [verify_overlap_with_other_bboxes, hiou, hgt]
  unfold remove_overlapping_bboxes
  rw [hsort]
  simp [rm_loop, hlB, hlA, hsomB, hsomA, hbB, hbA, hver1, hver2, set_som_zero, hne]

/-- Witness for C6 at the spec's concrete example: with
`A = {x:0,y:0,w:100,h:100}` listed first, `B = {x:0,y:0,w:95,h:95}` and
`iouThreshold = 0.9` (their IoU is 0.9025), the result keeps `B` and drops
`A`. -/
theorem smaller_candidate_wins_witness :
    remove_overlapping_bboxes
        [("A", ⟨some [0, 0, 100, 100], 1, 1, "big"⟩),
          ("B", ⟨some [0, 0, 95, 95], 1, 1, "small"⟩)] (9 / 10) =
      some [("A", ⟨some [0, 0, 100, 100], 0, 1, "big"⟩),
        ("B", ⟨some [0, 0, 95, 95], 1, 1, "small"⟩)] :=
  smaller_candidate_wins "A" "B" ⟨some [0, 0, 100, 100], 1, 1, "big"⟩
    ⟨some [0, 0, 95, 95], 1, 1, "small"⟩ 0 0 100 100 0 0 95 95 (361 / 400) (9 / 10)
    (by decide) rfl rfl rfl rfl (by norm_num)
    (by norm_num [iou_of_boxes, unpack4]) (by norm_num)

/-! ### Claim C9 (confirmed): determinism and sort stability -/

theorem filter_orderedInsert_area (c : ℚ) (a : String × ℚ) (l : List (String × ℚ)) :
    (List.orderedInsert area_le a l).filter (fun p => decide (p.2 = c)) =
      if a.2 = c then a :: l.filter (fun p => decide (p.2 = c))
      else l.filter (fun p => decide (p.2 = c)) := by
  induction l with
  | nil =>
    by_cases hc : a.2 = c
    · rw [if_pos hc]
      simp [List.orderedInsert, List.filter, hc]
    · rw [if_neg hc]
      simp [List.orderedInsert, List.filter, hc]
  | cons b l ih =>
    simp only [List.orderedInsert]
    by_cases hab : area_le a b
    · rw [if_pos hab]
      by_cases hc : a.2 = c
      · rw [if_pos hc]
        simp [List.filter_cons, hc]
      · rw [if_neg hc]
        simp [List.filter_cons, hc]
    · rw [if_neg hab]
      have hba : b.2 < a.2 := lt_of_not_le hab
      by_cases hc : a.2 = c
      · rw [if_pos hc]
        have hbc : ¬(b.2 = c) := by
          rw [← hc]
          exact ne_of_lt hba
        simp [List.filter_cons, hbc, ih, hc]
      · rw [if_neg hc]
        simp only [List.filter_cons, ih, if_neg hc]

theorem filter_insertionSort_area (c : ℚ) (l : List (String × ℚ)) :
    (List.insertionSort area_le l).filter (fun p => decide (p.2 = c)) =
      l.filter (fun p => decide (p.2 = c)) := by
  induction l with
  | nil => rfl
  | cons a l ih =>
    simp only [List.insertionSort]
    rw [filter_orderedInsert_area]
    by_cases hc : a.2 = c
    · rw [if_pos hc, ih, List.filter_cons]
      simp [hc]
    · rw [if_neg hc, ih, List.filter_cons]
      simp [hc]

/-- C9: mark selection is deterministic — two runs of
`remove_overlapping_bboxes` on identical input and threshold are equal — and
the candidate order is the stable area-ascending sort: `sort_uid_by_area`
sorts the `(uid, area)` pairs ascending by area, and candidates of any fixed
area keep their original input order (tie-break by input position). -/
theorem selection_deterministic_and_sort_stable (extra_props : List (String × APProps))
    (iou_threshold : ℚ) (pairs : List (String × ℚ))
    (hpairs : uid_area_pairs extra_props = some pairs) :
    remove_overlapping_bboxes extra_props iou_threshold =
      remove_overlapping_bboxes extra_props iou_threshold ∧
    sort_uid_by_area extra_props =
      some ((List.insertionSort area_le pairs).map Prod.fst) ∧
    (List.insertionSort area_le pairs).Sorted area_le ∧
    ∀ c : ℚ, (List.insertionSort area_le pairs).filter (fun p => decide (p.2 = c)) =
      pairs.filter (fun p => decide (p.2 = c)) := by
  refine ⟨rfl, ?_, ?_, ?_⟩
  · unfold sort_uid_by_area
    rw [hpairs]
  · exact List.sorted_insertionSort area_le pairs
  · intro c
    exact filter_insertionSort_area c pairs

/-- Witness for C9 at a concrete input: two candidates of equal area 4 stay
in input order `["x", "y"]` after the sort, and filtering the sorted pairs at
area 4 returns them in input order. -/
theorem selection_deterministic_and_sort_stable_witness :
    uid_area_pairs c9_ep = some [("x", 4), ("y", 4)] ∧
      sort_uid_by_area c9_ep = some ["x", "y"] ∧
      (List.insertionSort area_le [(("x" : String), (4 : ℚ)), ("y", 4)]).filter
        (fun p => decide (p.2 = (4 : ℚ))) = [("x", 4), ("y", 4)] := by
  have hpairs : uid_area_pairs c9_ep = some [("x", 4), ("y", 4)] := by
    norm_num [uid_area_pairs, bbox_area, unpack4, c9_ep]
  have h := selection_deterministic_and_sort_stable c9_ep 0 [("x", 4), ("y", 4)] hpairs
  refine ⟨hpairs, ?_, ?_⟩
  · rw [h.2.1]
    decide
  · rw [h.2.2.2 4]
    decide

/-! ### Claim C1: lemmas about the `remove_overlapping_bboxes` loop -/

theorem lookup_set_som_zero_ne (u uid : String) (h : u ≠ uid)
    (ep : List (String × APProps)) :
    lookup_assoc u (set_som_zero uid ep) = lookup_assoc u ep := by
  induction ep with
  | nil => rfl
  | cons kp rest ih =>
    obtain ⟨k, p⟩ := kp
    by_cases hk : k = uid
    · rw [set_som_zero, if_pos hk]
      have hku : ¬(k = u) := by
        intro hh
        apply h
        rw [← hh, hk]
      rw [lookup_assoc, lookup_assoc, if_neg hku, if_neg hku]
    · rw [set_som_zero, if_neg hk, lookup_assoc, lookup_assoc]
      by_cases hku : k = u
      · rw [if_pos hku, if_pos hku]
      · rw [if_neg hku, if_neg hku]
        exact ih

theorem lookup_set_som_zero_eq (uid : String) (ep : List (String × APProps)) (p : APProps)
    (h : lookup_assoc uid ep = some p) :
    lookup_assoc uid (set_som_zero uid ep) = some { p with set_of_marks := 0 } := by
  induction ep with
  | nil => simp [lookup_assoc] at h
  | cons kp rest ih =>
    obtain ⟨k, q⟩ := kp
    by_cases hk : k = uid
    · rw [lookup_assoc, if_pos hk, Option.some_inj] at h
      rw [set_som_zero, if_pos hk, lookup_assoc, if_pos hk, h]
    · rw [lookup_assoc, if_neg hk] at h
      rw [set_som_zero, if_neg hk, lookup_assoc, if_neg hk]
      exact ih h

theorem rm_loop_lookup_of_not_mem (iou_threshold : ℚ) (uid : String) (uids : List String) :
    ∀ (ep : List (String × APProps)) (acc : List (List ℚ))
      (ep' : List (String × APProps)) (acc' : List (List ℚ)),
      uid ∉ uids →
      rm_loop iou_threshold uids ep acc = some (ep', acc') →
      lookup_assoc uid ep' = lookup_assoc uid ep := by
  induction uids with
  | nil =>
    intro ep acc ep' acc' hmem h
    simp only [rm_loop, Option.some_inj, Prod.mk.injEq] at h
    rw [← h.1]
  | cons u rest ih =>
    intro ep acc ep' acc' hmem h
    have hne : uid ≠ u := fun hh => hmem (hh ▸ List.mem_cons_self u rest)
    have hmem' : uid ∉ rest := fun hh => hmem (List.mem_cons_of_mem u hh)
    cases hu : lookup_assoc u ep with
    | none =>
      rw [rm_loop] at h
      simp only [hu] at h
      exact Option.noConfusion h
    | some props =>
      rw [rm_loop] at h
      simp only [hu] at h
      by_cases hsom : props.set_of_marks = 0
      · rw [if_pos hsom] at h
        exact ih ep acc ep' acc' hmem' h
      · rw [if_neg hsom] at h
        cases hbb : props.bbox with
        | none =>
          simp only [hbb] at h
          exact ih ep acc ep' acc' hmem' h
        | some bb =>
          simp only [hbb] at h
          cases hv : verify_overlap_with_other_bboxes bb acc iou_threshold with
          | none =>
            simp only [hv] at h
            exact Option.noConfusion h
          | some r =>
            simp only [hv] at h
            have hrec := ih _ _ ep' acc' hmem' h
            rw [hrec]
            cases r with
            | false => simp
            | true =>
              simp only [if_true]
              exact lookup_set_som_zero_ne uid u hne ep

theorem considered_box_set_som_zero (u u0 : String) (h : u ≠ u0)
    (ep : List (String × APProps)) :
    considered_box (set_som_zero u0 ep) u = considered_box ep u := by
  unfold considered_box
  rw [lookup_set_som_zero_ne u u0 h ep]

theorem considered_boxes_congr (ep1 ep2 : List (String × APProps)) (uids : List String)
    (h : ∀ u ∈ uids, considered_box ep1 u = considered_box ep2 u) :
    considered_boxes ep1 uids = considered_boxes ep2 uids := by
  unfold considered_boxes
  induction uids with
  | nil => rfl
  | cons u rest ih =>
    rw [List.filterMap_cons, List.filterMap_cons, h u (List.mem_cons_self u rest),
      ih (fun v hv => h v (List.mem_cons_of_mem u hv))]

theorem rm_loop_split (iou_threshold : ℚ) (uid : String) (l1 : List String) :
    ∀ (l2 : List String) (ep : List (String × APProps)) (acc : List (List ℚ))
      (ep' : List (String × APProps)) (acc' : List (List ℚ)) (p : APProps),
      (l1 ++ uid :: l2).Nodup →
      rm_loop iou_threshold (l1 ++ uid :: l2) ep acc = some (ep', acc') →
      lookup_assoc uid ep = some p →
      (considered_box ep uid = none → lookup_assoc uid ep' = some p) ∧
      (∀ bb, considered_box ep uid = some bb →
        ∃ r, verify_overlap_with_other_bboxes bb (acc ++ considered_boxes ep l1)
            iou_threshold = some r ∧
          lookup_assoc uid ep' = some (if r then { p with set_of_marks := 0 } else p)) := by
  induction l1 with
  | nil =>
    intro l2 ep acc ep' acc' p hnd h hp
    rw [List.nil_append] at hnd h
    obtain ⟨hnotmem, hnd2⟩ := List.nodup_cons.mp hnd
    rw [rm_loop] at h
    simp only [hp] at h
    by_cases hsom : p.set_of_marks = 0
    · rw [if_pos hsom] at h
      constructor
      · intro _
        rw [rm_loop_lookup_of_not_mem iou_threshold uid l2 ep acc ep' acc' hnotmem h]
        exact hp
      · intro bb hcb
        exfalso
        unfold considered_box at hcb
        simp only [hp] at hcb
        rw [if_pos hsom] at hcb
        exact Option.noConfusion hcb
    · rw [if_neg hsom] at h
      cases hbb : p.bbox with
      | none =>
        simp only [hbb] at h
        constructor
        · intro _
          rw [rm_loop_lookup_of_not_mem iou_threshold uid l2 ep acc ep' acc' hnotmem h]
          exact hp
        · intro bb hcb
          exfalso
          unfold considered_box at hcb
          simp only [hp] at hcb
          rw [if_neg hsom, hbb] at hcb
          exact Option.noConfusion hcb
      | some bb0 =>
        simp only [hbb] at h
        cases hv : verify_overlap_with_other_bboxes bb0 acc iou_threshold with
        | none =>
          simp only [hv] at h
          exact Option.noConfusion h
        | some r =>
          simp only [hv] at h
          constructor
          · intro hcb
            exfalso
            unfold considered_box at hcb
            simp only [hp] at hcb
            rw [if_neg hsom, hbb] at hcb
            exact Option.noConfusion hcb
          · intro bb hcb
            have hbbeq : bb = bb0 := by
              unfold considered_box at hcb
              simp only [hp] at hcb
              rw [if_neg hsom, hbb] at hcb
              exact (Option.some_inj.mp hcb).symm
            subst hbbeq
            refine ⟨r, ?_, ?_⟩
            · have hemp : considered_boxes ep ([] : List String) = [] := rfl
              rw [hemp, List.append_nil]
              exact hv
            · have hpres := rm_loop_lookup_of_not_mem iou_threshold uid l2 _ _ ep' acc'
                hnotmem h
              rw [hpres]
              cases r with
              | false => simpa using hp
              | true =>
                simp only [if_true]
                rw [← hbb]
                exact lookup_set_som_zero_eq uid ep p hp
  | cons u0 l1' ih =>
    intro l2 ep acc ep' acc' p hnd h hp
    rw [List.cons_append] at hnd h
    obtain ⟨hu0, hnd'⟩ := List.nodup_cons.mp hnd
    have hu0uid : u0 ≠ uid := by
      intro hh
      apply hu0
      rw [hh]
      exact List.mem_append_right l1' (List.mem_cons_self uid l2)
    have hu0l1 : u0 ∉ l1' := fun hh => hu0 (List.mem_append_left _ hh)
    rw [rm_loop] at h
    cases hu : lookup_assoc u0 ep with
    | none =>
      simp only [hu] at h
      exact Option.noConfusion h
    | some p0 =>
      simp only [hu] at h
      by_cases hsom0 : p0.set_of_marks = 0
      · rw [if_pos hsom0] at h
        have hcb0 : considered_box ep u0 = none := by
          unfold considered_box
          simp only [hu]
          rw [if_pos hsom0]
        have hcbs : considered_boxes ep (u0 :: l1') = considered_boxes ep l1' := by
          unfold considered_boxes
          rw [List.filterMap_cons, hcb0]
        rw [hcbs]
        exact ih l2 ep acc ep' acc' p hnd' h hp
      · rw [if_neg hsom0] at h
        cases hbb0 : p0.bbox with
        | none =>
          simp only [hbb0] at h
          have hcb0 : considered_box ep u0 = none := by
            unfold considered_box
            simp only [hu]
            rw [if_neg hsom0, hbb0]
          have hcbs : considered_boxes ep (u0 :: l1') = considered_boxes ep l1' := by
            unfold considered_boxes
            rw [List.filterMap_cons, hcb0]
          rw [hcbs]
          exact ih l2 ep acc ep' acc' p hnd' h hp
        | some bb0 =>
          simp only [hbb0] at h
          cases hv : verify_overlap_with_other_bboxes bb0 acc iou_threshold with
          | none =>
            simp only [hv] at h
            exact Option.noConfusion h
          | some r0 =>
            simp only [hv] at h
            have hcb0 : considered_box ep u0 = some bb0 := by
              unfold considered_box
              simp only [hu]
              rw [if_neg hsom0, hbb0]
            have hlook2 : lookup_assoc uid
                (if r0 = true then set_som_zero u0 ep else ep) = some p := by
              cases r0 with
              | false => simpa using hp
              | true =>
                simp only [if_true]
                rw [lookup_set_som_zero_ne uid u0 (Ne.symm hu0uid) ep]
                exact hp
            have hcbuid : considered_box
                (if r0 = true then set_som_zero u0 ep else ep) uid =
                considered_box ep uid := by
              cases r0 with
              | false => simp
              | true =>
                simp only [if_true]
                exact considered_box_set_som_zero uid u0 (Ne.symm hu0uid) ep
            have hcbcong : considered_boxes
                (if r0 = true then set_som_zero u0 ep else ep) l1' =
                considered_boxes ep l1' := by
              apply considered_boxes_congr
              intro u hu'
              have hne' : u ≠ u0 := fun hh => hu0l1 (hh ▸ hu')
              cases r0 with
              | false => simp
              | true =>
                simp only [if_true]
                exact considered_box_set_som_zero u u0 hne' ep
            obtain ⟨ihA, ihB⟩ := ih l2 _ (acc ++ [bb0]) ep' acc' p hnd' h hlook2
            constructor
            · intro hcb
              apply ihA
              rw [hcbuid]
              exact hcb
            · intro bb hcb
              obtain ⟨r, hver, hlook'⟩ := ihB bb (by rw [hcbuid]; exact hcb)
              refine ⟨r, ?_, hlook'⟩
              have hcbs : considered_boxes ep (u0 :: l1') =
                  bb0 :: considered_boxes ep l1' := by
                unfold considered_boxes
                rw [List.filterMap_cons, hcb0]
              rw [hcbs, ← hcbcong]
              rw [hcbcong] at hver
              rw [hcbcong]
              have harr : acc ++ [bb0] ++ considered_boxes ep l1' =
                  acc ++ bb0 :: considered_boxes ep l1' := by
                rw [List.append_assoc, List.singleton_append]
              rw [← harr]
              exact hver

/-! ### Claim C1 (corrected) -/

/-- C1 (amended): for every candidate table, threshold, and position in the
sorted uid order (uids distinct): a candidate that is not considered (mark
flag 0 or missing bbox) is left unchanged and its box is not accumulated; a
considered candidate has its mark cleared exactly when its IoU against the
box of some previously *considered* candidate — accepted or rejected —
exceeds the threshold, because the loop appends every considered candidate's
box to the accumulating list whether or not that candidate was rejected; so
a rejected candidate's box can suppress later candidates.  (Area-band
rejection lives in the separate `preprocess_extra_props` pass, which clears
the mark beforehand; cleared candidates are skipped and never accumulated.) -/
theorem remove_overlapping_char (extra_props : List (String × APProps))
    (iou_threshold : ℚ) (l1 l2 : List String) (uid : String) (p : APProps)
    (ep' : List (String × APProps))
    (hsort : sort_uid_by_area extra_props = some (l1 ++ uid :: l2))
    (hnd : (l1 ++ uid :: l2).Nodup)
    (hrun : remove_overlapping_bboxes extra_props iou_threshold = some ep')
    (hp : lookup_assoc uid extra_props = some p) :
    (considered_box extra_props uid = none → lookup_assoc uid ep' = some p) ∧
    (∀ bb, considered_box extra_props uid = some bb →
      ∃ r, verify_overlap_with_other_bboxes bb (considered_boxes extra_props l1)
          iou_threshold = some r ∧
        lookup_assoc uid ep' = some (if r then { p with set_of_marks := 0 } else p)) := by
  unfold remove_overlapping_bboxes at hrun
  rw [hsort] at hrun
  cases hloop : rm_loop iou_threshold (l1 ++ uid :: l2) extra_props [] with
  | none =>
    simp only [hloop] at hrun
    exact Option.noConfusion hrun
  | some pr =>
    obtain ⟨ep2, acc2⟩ := pr
    simp only [hloop, Option.some_inj] at hrun
    subst hrun
    have h := rm_loop_split iou_threshold uid l1 l2 extra_props [] ep2 acc2 p hnd hloop hp
    simp only [List.nil_append] at h
    exact h

theorem c1_pairs_eval : uid_area_pairs c1_ep = some [("a", 100), ("b", 110), ("c", 120)] := by
  norm_num [uid_area_pairs, bbox_area, unpack4, c1_ep, c1_p1, c1_p2, c1_p3]

theorem c1_sort_eval : sort_uid_by_area c1_ep = some ["a", "b", "c"] := by
  unfold sort_uid_by_area
  rw [c1_pairs_eval]
  decide

theorem c1_verify_b : verify_overlap_with_other_bboxes [0, 2, 10, 11] [[0, 0, 10, 10]]
    (1 / 4) = some true := by
  norm_num [verify_overlap_with_other_bboxes, iou_of_boxes, unpack4]

theorem c1_verify_c : verify_overlap_with_other_bboxes [0, 8, 10, 12]
    [[0, 0, 10, 10], [0, 2, 10, 11]] (1 / 4) = some true := by
  norm_num [verify_overlap_with_other_bboxes, iou_of_boxes, unpack4]

theorem c1_verify_c_spec : verify_overlap_with_other_bboxes [0, 8, 10, 12]
    [[0, 0, 10, 10]] (1 / 4) = some false := by
  norm_num [verify_overlap_with_other_bboxes, iou_of_boxes, unpack4]

theorem c1_run_eval : remove_overlapping_bboxes c1_ep (1 / 4) = some c1_out := by
  have va : verify_overlap_with_other_bboxes [0, 0, 10, 10] [] (1 / 4) = some false := rfl
  unfold remove_overlapping_bboxes
  rw [c1_sort_eval]
  simp only [rm_loop, c1_ep, c1_out, c1_p1, c1_p2, c1_p3, lookup_assoc, set_som_zero,
    va, c1_verify_b, c1_verify_c, String.reduceEq, Int.reduceEq, reduceIte,
    List.nil_append, List.cons_append, Bool.false_eq_true, Bool.true_eq_false,
    if_true, if_false]

/-- C1 counterexample: the claim says a candidate's box is appended to the
accepted list only when the candidate is accepted, so a rejected candidate's
box never suppresses a later candidate; but on the concrete table `c1_ep`
with threshold 1/4, candidate "c" is suppressed by the box of the already
rejected candidate "b" (its IoU with the only accepted box, "a"'s, is 1/10,
below the threshold): the code clears "c"'s mark, while the spec's
`selectMarks` algorithm, as the claim words it, accepts `["a", "c"]`. -/
theorem remove_overlapping_spec_divergence :
    remove_overlapping_bboxes c1_ep (1 / 4) = some c1_out ∧
      lookup_assoc "c" c1_out = some { c1_p3 with set_of_marks := 0 } ∧
      select_marks_spec
          [("a", [0, 0, 10, 10]), ("b", [0, 2, 10, 11]), ("c", [0, 8, 10, 12])]
          (1 / 4) 50 500000 = some ["a", "c"] := by
  refine ⟨c1_run_eval, by decide, ?_⟩
  have va : verify_overlap_with_other_bboxes [0, 0, 10, 10] [] (1 / 4) = some false := rfl
  have hband1 : ¬((10 : ℚ) * 10 < 50 ∨ (500000 : ℚ) < 10 * 10) := by norm_num
  have hband2 : ¬((10 : ℚ) * 11 < 50 ∨ (500000 : ℚ) < 10 * 11) := by norm_num
  have hband3 : ¬((10 : ℚ) * 12 < 50 ∨ (500000 : ℚ) < 10 * 12) := by norm_num
  simp only [select_marks_spec, select_marks_spec_loop, unpack4, va, c1_verify_b,
    c1_verify_c_spec, hband1, hband2, hband3, String.reduceEq, Int.reduceEq, reduceIte,
    List.nil_append, List.cons_append, Bool.false_eq_true, Bool.true_eq_false,
    if_true, if_false]

/-- Witness for C1 (amended) at the concrete table `c1_ep`: for candidate
"c" (considered, box `[0,8,10,12]`), the verify call against the boxes of
*all* previously considered candidates ("a" and the rejected "b") determines
its fate in the output. -/
theorem remove_overlapping_char_witness :
    ∃ r, verify_overlap_with_other_bboxes [0, 8, 10, 12]
        (considered_boxes c1_ep ["a", "b"]) (1 / 4) = some r ∧
      lookup_assoc "c" c1_out = some
        (if r then { c1_p3 with set_of_marks := 0 } else c1_p3) := by
  have hchar := remove_overlapping_char c1_ep (1 / 4) ["a", "b"] [] "c" c1_p3 c1_out
    c1_sort_eval (by decide) c1_run_eval (by decide)
  exact hchar.2 [0, 8, 10, 12] (by decide)

end Weblinx
